import Mathlib

/-!
Shallow embedding of the volatility-analysis pipeline in
src/spy_volatility_analysis.py: daily log returns, the four volatility
estimators (realized, Parkinson, Garman-Klass, ATR) and the per-year
aggregation. Machine floats are modelled over the reals; a pandas NaN or
missing value is modelled as none of an Option.
-/

namespace SpyVol

/-- Trading date: calendar year plus an ordinal inside the year. -/
structure Date where
  year : Int
  sub : Nat
deriving DecidableEq

/-- Strict calendar order on dates (year first, then ordinal). -/
def dateLt (a b : Date) : Prop :=
  a.year < b.year ∨ (a.year = b.year ∧ a.sub < b.sub)

instance : DecidableRel dateLt :=
  fun a b => inferInstanceAs (Decidable (a.year < b.year ∨ (a.year = b.year ∧ a.sub < b.sub)))

/-- One daily OHLC bar. -/
structure Bar where
  open_ : ℝ
  high : ℝ
  low : ℝ
  close : ℝ

/-- A bar with its date and the derived log return; the return is none on
the first row of the series, mirroring the NaN that close.shift(1)
introduces. -/
structure Row where
  date : Date
  bar : Bar
  ret : Option ℝ

/-- The frame passed through the pipeline: date index, OHLC columns, and
the two derived columns the script writes into the caller's frame in
place (the returns column of calculate_returns and the year column of
analyze_volatility_by_year), each absent until the writing function
runs. -/
structure DataFrame where
  dates : List Date
  bars : List Bar
  returnsCol : Option (List (Option ℝ))
  yearCol : Option (List Int)

/-- Mean of a list of present values, as a pandas Series mean after NaNs
were dropped: NaN (none) on an empty list, otherwise sum over count. -/
noncomputable def meanOpt (l : List ℝ) : Option ℝ :=
  if l.isEmpty then none else some (l.sum / l.length)

/-- Sample standard deviation as pandas Series.std computes it on the
non-NaN values: ddof = 1 (the N-1 denominator, about the list's own
mean), NaN (none) when fewer than two values are present. -/
noncomputable def stdOpt (l : List ℝ) : Option ℝ :=
  if l.length < 2 then none
  else some (Real.sqrt ((l.map fun x => (x - l.sum / l.length) ^ 2).sum / ((l.length : ℝ) - 1)))

/-- calculate_realized_volatility from the source: returns.std(), then
multiplied by sqrt 252 when annualize is true. NaN entries of the input
series are skipped, as pandas does. -/
noncomputable def calculate_realized_volatility (returns : List (Option ℝ)) (annualize : Bool) : Option ℝ :=
  let vol := stdOpt (returns.filterMap id)
  if annualize then vol.map fun v => v * Real.sqrt 252 else vol

/-- calculate_parkinson_volatility from the source:
sqrt of (1 / (4 ln 2) times the mean of (ln (high / low))^2), times
sqrt 252 when annualize is true; NaN (none) on an empty window. -/
noncomputable def calculate_parkinson_volatility (bars : List Bar) (annualize : Bool) : Option ℝ :=
  (meanOpt (bars.map fun b => Real.log (b.high / b.low) ^ 2)).map fun m =>
    let vol := Real.sqrt ((1 / (4 * Real.log 2)) * m)
    if annualize then vol * Real.sqrt 252 else vol

/-- calculate_garman_klass_volatility from the source:
sqrt of (0.5 mean((ln (high / low))^2) - (2 ln 2 - 1) mean((ln (close / open))^2)),
times sqrt 252 when annualize is true. np.sqrt of a negative argument is
NaN, modelled as none; the source raises nothing in that case. -/
noncomputable def calculate_garman_klass_volatility (bars : List Bar) (annualize : Bool) : Option ℝ :=
  match meanOpt (bars.map fun b => Real.log (b.high / b.low) ^ 2),
        meanOpt (bars.map fun b => Real.log (b.close / b.open_) ^ 2) with
  | some hl, some co =>
      let rad := 0.5 * hl - (2 * Real.log 2 - 1) * co
      if rad < 0 then none
      else some (if annualize then Real.sqrt rad * Real.sqrt 252 else Real.sqrt rad)
  | _, _ => none

/-- Per-bar true range series of calculate_atr, carrying the previous
close: the first bar (previous close NaN, skipped by the row-wise max)
degenerates to high - low; later bars take
max (high - low) (max the-absolute-high-gap the-absolute-low-gap). -/
noncomputable def trueRangesAux (prevClose : Option ℝ) : List Bar → List ℝ
  | [] => []
  | b :: rest =>
      (match prevClose with
        | none => b.high - b.low
        | some pc => max (b.high - b.low) (max |b.high - pc| |b.low - pc|)) ::
        trueRangesAux (some b.close) rest

/-- True ranges of a window of bars, no previous close before the first. -/
noncomputable def trueRanges (bars : List Bar) : List ℝ :=
  trueRangesAux none bars

/-- Trailing moving average with window p, as pandas
rolling(window = p).mean() with the default min_periods: NaN (none)
until a full window of p values is available. -/
noncomputable def rollingMean (p : Nat) (xs : List ℝ) : List (Option ℝ) :=
  (List.range xs.length).map fun i =>
    if i + 1 < p then none
    else some (((xs.drop (i + 1 - p)).take p).sum / (p : ℝ))

/-- calculate_atr from the source: the mean (NaNs skipped) of the rolling
mean of the true-range series; never annualized, stays in price units. -/
noncomputable def calculate_atr (bars : List Bar) (period : Nat) : Option ℝ :=
  meanOpt ((rollingMean period (trueRanges bars)).filterMap id)

/-- Log-return series of calculate_returns, carrying the previous close:
np.log (close / close.shift(1)), NaN (none) where no previous close
exists. -/
noncomputable def returnsAux (prev : Option ℝ) : List ℝ → List (Option ℝ)
  | [] => []
  | c :: rest => (prev.map fun pc => Real.log (c / pc)) :: returnsAux (some c) rest

/-- Log returns of a close series: entry 0 is missing, entry i for i at
least 1 is ln (close i / close (i-1)). -/
noncomputable def returnsFromCloses (closes : List ℝ) : List (Option ℝ) :=
  returnsAux none closes

/-- Last element of a list as the carried previous close, the initial
carry when the list is empty. -/
def carry (prev : Option ℝ) (l : List ℝ) : Option ℝ :=
  l.foldl (fun _ c => some c) prev

/-- calculate_returns from the source: writes the returns column into the
frame in place (df with a new returns column) and returns that same
frame. -/
noncomputable def calculate_returns (df : DataFrame) : DataFrame :=
  { df with returnsCol := some (returnsFromCloses (df.bars.map Bar.close)) }

/-- Returns column of a frame, an all-missing column when it was never
written. -/
def retsOf (df : DataFrame) : List (Option ℝ) :=
  df.returnsCol.getD (List.replicate df.bars.length none)

/-- Rows of a frame: date, bar and return zipped positionally. -/
def rowsOf (df : DataFrame) : List Row :=
  ((df.dates.zip df.bars).zip (retsOf df)).map fun p => ⟨p.1.1, p.1.2, p.2⟩

/-- Rows produced by the pipeline on a raw date-keyed series: the returns
are derived from the whole series (calculate_returns runs before any
partitioning by year). -/
noncomputable def rowsFromSeries (series : List (Date × Bar)) : List Row :=
  (series.zip (returnsFromCloses (series.map fun p => p.2.close))).map fun p =>
    ⟨p.1.1, p.1.2, p.2⟩

/-- Rows with carried previous close, the unrolled form of
rowsFromSeries: each dated bar is paired with the log return computed
from the close carried over from the bar before it. -/
noncomputable def rowsAux (prev : Option ℝ) : List (Date × Bar) → List Row
  | [] => []
  | s :: rest =>
      Row.mk s.1 s.2 (prev.map fun pc => Real.log (s.2.close / pc)) ::
        rowsAux (some s.2.close) rest

/-- Close carried across a span of dated bars. -/
def carryBars (prev : Option ℝ) (l : List (Date × Bar)) : Option ℝ :=
  l.foldl (fun _ s => some s.2.close) prev

/-- One summary record of analyze_volatility_by_year, one metric per
column of the Python dict; every metric that pandas can turn into NaN is
an Option. -/
structure YearMetrics where
  year : Int
  tradingDays : Nat
  realizedVolPct : Option ℝ
  parkinsonVolPct : Option ℝ
  garmanKlassVolPct : Option ℝ
  avgDailyRangePct : Option ℝ
  maxDailyReturnPct : Option ℝ
  minDailyReturnPct : Option ℝ
  avgATR : Option ℝ
  annualReturnPct : Option ℝ

/-- Metrics dict built for one year from that year's rows, exactly the
expressions of the source: estimators annualized by default and scaled
to percent, max and min over the non-NaN returns, ATR with period 14,
annual return from the year's first and last close. -/
noncomputable def metricsFor (y : Int) (yd : List Row) : YearMetrics :=
  { year := y
    tradingDays := yd.length
    realizedVolPct := (calculate_realized_volatility (yd.map Row.ret) true).map fun v => v * 100
    parkinsonVolPct := (calculate_parkinson_volatility (yd.map Row.bar) true).map fun v => v * 100
    garmanKlassVolPct := (calculate_garman_klass_volatility (yd.map Row.bar) true).map fun v => v * 100
    avgDailyRangePct := meanOpt (yd.map fun r => (r.bar.high - r.bar.low) / r.bar.close * 100)
    maxDailyReturnPct := ((yd.map Row.ret).filterMap id).max?.map fun v => v * 100
    minDailyReturnPct := ((yd.map Row.ret).filterMap id).min?.map fun v => v * 100
    avgATR := calculate_atr (yd.map Row.bar) 14
    annualReturnPct :=
      match (yd.map fun r => r.bar.close).head?, (yd.map fun r => r.bar.close).getLast? with
      | some f, some l => some ((l / f - 1) * 100)
      | _, _ => none }

/-- Distinct years of the rows, ascending, as sorted(unique()) of the
year column. -/
def uniqueYearsSorted (rows : List Row) : List Int :=
  ((rows.map fun r => r.date.year).toFinset).sort (· ≤ ·)

/-- Year loop of analyze_volatility_by_year: for each distinct year in
ascending order, take that year's rows, skip the year when it has fewer
than 10 rows, otherwise emit its metrics record. -/
noncomputable def analyzeRows (rows : List Row) : List YearMetrics :=
  (uniqueYearsSorted rows).filterMap fun y =>
    if (rows.filter fun r => r.date.year = y).length < 10 then none
    else some (metricsFor y (rows.filter fun r => r.date.year = y))

/-- analyze_volatility_by_year from the source: writes the year column
into the caller's frame in place, then runs the year loop; the pair
returns the mutated frame alongside the summary records. -/
noncomputable def analyze_volatility_by_year (df : DataFrame) : DataFrame × List YearMetrics :=
  let df2 := { df with yearCol := some (df.dates.map Date.year) }
  (df2, analyzeRows (rowsOf df2))

theorem filterMap_id_map_some {α : Type} (l : List α) : (l.map some).filterMap id = l := by
  induction l with
  | nil => rfl
  | cons a t ih => simp [List.filterMap_cons, ih]

theorem returnsAux_length (prev : Option ℝ) (l : List ℝ) :
    (returnsAux prev l).length = l.length := by
  induction l generalizing prev with
  | nil => rfl
  | cons c rest ih => simp [returnsAux, ih]

theorem returnsAux_append (prev : Option ℝ) (l1 l2 : List ℝ) :
    returnsAux prev (l1 ++ l2) = returnsAux prev l1 ++ returnsAux (carry prev l1) l2 := by
  induction l1 generalizing prev with
  | nil => simp [returnsAux, carry]
  | cons c rest ih => simp [returnsAux, carry, List.foldl_cons] at ih ⊢; exact ih (some c)

theorem carry_append_last (prev : Option ℝ) (l : List ℝ) (x : ℝ) :
    carry prev (l ++ [x]) = some x := by
  simp [carry, List.foldl_append]

theorem returnsAux_getElem (prev : Option ℝ) (closes : List ℝ) (i : Nat)
    (hi : i + 1 < closes.length) :
    (returnsAux prev closes)[i+1]? =
      some (some (Real.log (closes.getD (i+1) 0 / closes.getD i 0))) := by
  induction closes generalizing prev i with
  | nil => simp at hi
  | cons c rest ih =>
    match i with
    | 0 =>
      match rest, hi with
      | d :: rest2, _ => simp [returnsAux, List.getD]
    | j + 1 =>
      have hj : j + 1 < rest.length := by
        simpa [Nat.succ_lt_succ_iff] using hi
      have := ih (some c) j hj
      simpa [returnsAux, List.getD] using this

/-- C3: ReturnsCalculator on an ordered series of N positive closes yields
exactly N entries, entry 0 missing, and entry i (i at least 1) equal to
ln of close i over close (i-1). -/
theorem returns_indexed (closes : List ℝ) (i : Nat)
    (hpos : ∀ c ∈ closes, 0 < c) (hi : i + 1 < closes.length) :
    (returnsFromCloses closes).length = closes.length
    ∧ (returnsFromCloses closes).head? = some none
    ∧ (returnsFromCloses closes)[i+1]? =
        some (some (Real.log (closes.getD (i+1) 0 / closes.getD i 0))) := by
  refine ⟨returnsAux_length none closes, ?_, returnsAux_getElem none closes i hi⟩
  match closes, hi with
  | c :: rest, _ => simp [returnsFromCloses, returnsAux]

theorem returns_indexed_example :
    (returnsFromCloses [(1:ℝ), 2, 4]).length = ([(1:ℝ), 2, 4]).length
    ∧ (returnsFromCloses [(1:ℝ), 2, 4]).head? = some none
    ∧ (returnsFromCloses [(1:ℝ), 2, 4])[1]? =
        some (some (Real.log (([(1:ℝ), 2, 4]).getD 1 0 / ([(1:ℝ), 2, 4]).getD 0 0))) :=
  returns_indexed [1, 2, 4] 0 (by norm_num) (by simp)

/-- C1: RealizedVol of a window of at least two return values is the
sample standard deviation with the N-1 denominator about the window's
own mean, and the annualized result is exactly the non-annualized one
times sqrt 252. -/
theorem realized_vol_sample_std (returns : List ℝ) (h : 2 ≤ returns.length) :
    calculate_realized_volatility (returns.map some) false
      = some (Real.sqrt (((returns.map fun x =>
          (x - returns.sum / returns.length) ^ 2).sum) / ((returns.length : ℝ) - 1)))
    ∧ calculate_realized_volatility (returns.map some) true
      = (calculate_realized_volatility (returns.map some) false).map
          fun v => v * Real.sqrt 252 := by
  have e : (returns.map some).filterMap id = returns := filterMap_id_map_some returns
  constructor
  · simp only [calculate_realized_volatility, e, stdOpt, if_neg (by omega : ¬ returns.length < 2)]
    simp
  · simp [calculate_realized_volatility]

theorem realized_vol_sample_std_example :
    calculate_realized_volatility ([(0:ℝ), 1].map some) false
      = some (Real.sqrt ((([(0:ℝ), 1].map fun x =>
          (x - ([(0:ℝ), 1]).sum / (([(0:ℝ), 1]).length)) ^ 2).sum) / ((([(0:ℝ), 1]).length : ℝ) - 1)))
    ∧ calculate_realized_volatility ([(0:ℝ), 1].map some) true
      = (calculate_realized_volatility ([(0:ℝ), 1].map some) false).map
          fun v => v * Real.sqrt 252 :=
  realized_vol_sample_std [0, 1] (by simp)

theorem trueRangesAux_length (prev : Option ℝ) (bars : List Bar) :
    (trueRangesAux prev bars).length = bars.length := by
  induction bars generalizing prev with
  | nil => rfl
  | cons b rest ih => simp [trueRangesAux, ih]

theorem rollingMean_all_none (p : Nat) (xs : List ℝ) (h : xs.length < p) :
    (rollingMean p xs).filterMap id = [] := by
  rw [List.filterMap_eq_nil_iff]
  intro a ha
  rw [rollingMean, List.mem_map] at ha
  obtain ⟨i, hi, rfl⟩ := ha
  rw [List.mem_range] at hi
  rw [if_pos (by omega)]
  rfl

theorem rollingMean_full (p : Nat) (xs : List ℝ) (hp : 0 < p) (h : xs.length = p) :
    (rollingMean p xs).filterMap id = [xs.sum / (p : ℝ)] := by
  obtain ⟨q, rfl⟩ : ∃ q, p = q + 1 := ⟨p - 1, (Nat.succ_pred_eq_of_pos hp).symm⟩
  rw [rollingMean, h, List.range_succ, List.map_append, List.filterMap_append]
  have h1 : ((List.range q).map fun i =>
      if i + 1 < q + 1 then none
      else some (((xs.drop (i + 1 - (q + 1))).take (q + 1)).sum / ((q + 1 : Nat) : ℝ))).filterMap id
      = [] := by
    rw [List.filterMap_eq_nil_iff]
    intro a ha
    rw [List.mem_map] at ha
    obtain ⟨i, hi, rfl⟩ := ha
    rw [List.mem_range] at hi
    rw [if_pos (by omega)]
    rfl
  rw [h1]
  have h2 : xs.take (q + 1) = xs := List.take_of_length_le (by omega)
  simp [if_neg (by omega : ¬ q + 1 < q + 1), h2]

/-- C2: AverageTrueRange over a window is the mean of the valid trailing
moving-average values of the true-range series; on a window of exactly
14 bars it is the single full-window rolling mean (the mean of all 14
true ranges), and the first bar's true range degenerates to
high minus low. -/
theorem atr_full_window (bars : List Bar) (h : bars.length = 14) :
    calculate_atr bars 14
      = meanOpt ((rollingMean 14 (trueRanges bars)).filterMap id)
    ∧ calculate_atr bars 14 = some ((trueRanges bars).sum / 14)
    ∧ (trueRanges bars).head? = (bars.head?).map fun b => b.high - b.low := by
  refine ⟨rfl, ?_, ?_⟩
  · have hlen : (trueRanges bars).length = 14 := by
      rw [trueRanges, trueRangesAux_length, h]
    rw [calculate_atr, rollingMean_full 14 (trueRanges bars) (by omega) hlen]
    simp [meanOpt]
  · match bars with
    | [] => rfl
    | b :: rest => simp [trueRanges, trueRangesAux]

theorem atr_full_window_example :
    calculate_atr (List.replicate 14 (Bar.mk 100 110 90 105)) 14
      = meanOpt ((rollingMean 14 (trueRanges (List.replicate 14 (Bar.mk 100 110 90 105)))).filterMap id)
    ∧ calculate_atr (List.replicate 14 (Bar.mk 100 110 90 105)) 14
      = some ((trueRanges (List.replicate 14 (Bar.mk 100 110 90 105))).sum / 14)
    ∧ (trueRanges (List.replicate 14 (Bar.mk 100 110 90 105))).head?
      = ((List.replicate 14 (Bar.mk 100 110 90 105)).head?).map fun b => b.high - b.low :=
  atr_full_window (List.replicate 14 (Bar.mk 100 110 90 105)) (by simp)

theorem filterMap_ite_none {α : Type} (l : List α) (p : α → Prop) [DecidablePred p] :
    (l.filterMap fun a => if p a then none else some a) = l.filter fun a => ¬ p a := by
  induction l with
  | nil => rfl
  | cons a t ih =>
    by_cases hpa : p a <;> simp [List.filterMap_cons, List.filter_cons, hpa, ih]

/-- C4: the aggregator emits a record for a year exactly when that year
has at least 10 rows; a 10-row year is kept, a 9-row year is dropped,
and other years are unaffected since membership is decided year by
year. -/
theorem year_included_iff (rows : List Row) (y : Int) :
    y ∈ (analyzeRows rows).map YearMetrics.year ↔
      (y ∈ rows.map fun r => r.date.year) ∧
        10 ≤ (rows.filter fun r => r.date.year = y).length := by
  constructor
  · intro hy
    rw [List.mem_map] at hy
    obtain ⟨m, hm, hmy⟩ := hy
    simp only [analyzeRows] at hm
    rw [List.mem_filterMap] at hm
    obtain ⟨a, ha, hfa⟩ := hm
    by_cases hc : (rows.filter fun r => r.date.year = a).length < 10
    · rw [if_pos hc] at hfa
      exact absurd hfa (by simp)
    · rw [if_neg hc] at hfa
      have hma : metricsFor a (rows.filter fun r => r.date.year = a) = m :=
        Option.some_inj.mp hfa
      have hay : a = y := by
        rw [← hma] at hmy
        exact hmy
      subst hay
      refine ⟨?_, by omega⟩
      rw [uniqueYearsSorted, Finset.mem_sort] at ha
      exact List.mem_toFinset.mp ha
  · rintro ⟨hy, hlen⟩
    rw [List.mem_map]
    refine ⟨metricsFor y (rows.filter fun r => r.date.year = y), ?_, rfl⟩
    simp only [analyzeRows]
    rw [List.mem_filterMap]
    refine ⟨y, ?_, ?_⟩
    · rw [uniqueYearsSorted, Finset.mem_sort]
      exact List.mem_toFinset.mpr hy
    · rw [if_neg (by omega)]

/-- C8: the aggregator's output lists exactly the qualifying years, in
strictly ascending year order (one record per qualifying year). -/
theorem output_sorted_by_year (rows : List Row) :
    (analyzeRows rows).map YearMetrics.year
      = (uniqueYearsSorted rows).filter
          (fun y => 10 ≤ (rows.filter fun r => r.date.year = y).length)
    ∧ List.Sorted (· < ·) ((analyzeRows rows).map YearMetrics.year) := by
  have h1 : (analyzeRows rows).map YearMetrics.year
      = (uniqueYearsSorted rows).filter
          (fun y => 10 ≤ (rows.filter fun r => r.date.year = y).length) := by
    simp only [analyzeRows]
    rw [List.map_filterMap]
    have e : ∀ a : Int, (Option.map YearMetrics.year
        (if (rows.filter fun r => r.date.year = a).length < 10 then none
          else some (metricsFor a (rows.filter fun r => r.date.year = a))))
        = if (rows.filter fun r => r.date.year = a).length < 10 then none else some a := by
      intro a
      by_cases hc : (rows.filter fun r => r.date.year = a).length < 10
      · rw [if_pos hc, if_pos hc]; rfl
      · rw [if_neg hc, if_neg hc]; rfl
    simp only [e]
    rw [filterMap_ite_none (uniqueYearsSorted rows)
      (fun y => (rows.filter fun r => r.date.year = y).length < 10)]
    apply List.filter_congr
    intro x hx
    simp [Nat.not_lt]
  refine ⟨h1, ?_⟩
  rw [h1]
  exact List.Pairwise.filter _ (Finset.sort_sorted_lt _)

theorem analyzeRows_single_year (rows : List Row) (y : Int)
    (hall : ∀ r ∈ rows, r.date.year = y) (h10 : 10 ≤ rows.length) :
    analyzeRows rows = [metricsFor y rows] := by
  have hne : rows ≠ [] := by
    intro h
    rw [h] at h10
    simp at h10
  have hfe : (rows.filter fun r => r.date.year = y) = rows :=
    List.filter_eq_self.mpr (by intro a ha; simpa using hall a ha)
  have hts : (rows.map fun r => r.date.year).toFinset = {y} := by
    ext a
    simp only [List.mem_toFinset, List.mem_map, Finset.mem_singleton]
    constructor
    · rintro ⟨r, hr, rfl⟩
      exact hall r hr
    · rintro rfl
      obtain ⟨r, hr⟩ : ∃ r, r ∈ rows := by
        match rows, hne with
        | r :: rest, _ => exact ⟨r, List.mem_cons_self r rest⟩
      exact ⟨r, hr, hall r hr⟩
  have hys : uniqueYearsSorted rows = [y] := by
    simp only [uniqueYearsSorted, hts, Finset.sort_singleton]
  simp only [analyzeRows, hys, List.filterMap_cons, List.filterMap_nil, hfe,
    if_neg (show ¬ rows.length < 10 by omega)]

/-- C7: a year with at least 10 but fewer than 14 rows still gets its
summary record; its ATR field is the mean of the valid rolling values,
and since no full 14-bar window exists that list of valid values is
empty, so the field is NaN (none) - the year is not dropped. -/
theorem short_year_atr (rows : List Row) (y : Int)
    (hall : ∀ r ∈ rows, r.date.year = y)
    (h10 : 10 ≤ rows.length) (h14 : rows.length < 14) :
    analyzeRows rows = [metricsFor y rows]
    ∧ (metricsFor y rows).avgATR
        = meanOpt ((rollingMean 14 (trueRanges (rows.map Row.bar))).filterMap id)
    ∧ (rollingMean 14 (trueRanges (rows.map Row.bar))).filterMap id = []
    ∧ (metricsFor y rows).avgATR = none := by
  have h3 : (rollingMean 14 (trueRanges (rows.map Row.bar))).filterMap id = [] := by
    apply rollingMean_all_none
    rw [trueRanges, trueRangesAux_length, List.length_map]
    omega
  have h2 : (metricsFor y rows).avgATR
      = meanOpt ((rollingMean 14 (trueRanges (rows.map Row.bar))).filterMap id) := rfl
  refine ⟨analyzeRows_single_year rows y hall h10, h2, h3, ?_⟩
  rw [h2, h3]
  rfl

theorem short_year_atr_example :
    analyzeRows (List.replicate 10 (Row.mk (Date.mk 2020 0) (Bar.mk 100 110 90 105) none))
      = [metricsFor 2020 (List.replicate 10 (Row.mk (Date.mk 2020 0) (Bar.mk 100 110 90 105) none))]
    ∧ (metricsFor 2020 (List.replicate 10 (Row.mk (Date.mk 2020 0) (Bar.mk 100 110 90 105) none))).avgATR
        = meanOpt ((rollingMean 14 (trueRanges ((List.replicate 10 (Row.mk (Date.mk 2020 0) (Bar.mk 100 110 90 105) none)).map Row.bar))).filterMap id)
    ∧ (rollingMean 14 (trueRanges ((List.replicate 10 (Row.mk (Date.mk 2020 0) (Bar.mk 100 110 90 105) none)).map Row.bar))).filterMap id = []
    ∧ (metricsFor 2020 (List.replicate 10 (Row.mk (Date.mk 2020 0) (Bar.mk 100 110 90 105) none))).avgATR = none :=
  short_year_atr (List.replicate 10 (Row.mk (Date.mk 2020 0) (Bar.mk 100 110 90 105) none)) 2020
    (by
      intro r hr
      rw [List.eq_of_mem_replicate hr])
    (by simp) (by simp)

/-- C5 (evaluation at the failing input): on the pathological single bar
with open 1, high 1, low 1, close 2 the Garman-Klass radicand is
negative, and the function returns NaN (none) for both annualize flags
instead of signaling a numerical-domain error - np.sqrt of a negative
argument is a silent NaN in the source. -/
theorem garman_klass_silent_nan :
    (0.5 : ℝ) * Real.log ((1 : ℝ) / 1) ^ 2
      - (2 * Real.log 2 - 1) * Real.log ((2 : ℝ) / 1) ^ 2 < 0
    ∧ calculate_garman_klass_volatility [Bar.mk 1 1 1 2] true = none
    ∧ calculate_garman_klass_volatility [Bar.mk 1 1 1 2] false = none := by
  have hlog2 : (0.6931471803 : ℝ) < Real.log 2 := Real.log_two_gt_d9
  have hL : (0 : ℝ) < Real.log 2 := by linarith
  have h1 : Real.log ((1 : ℝ) / 1) = 0 := by
    norm_num
  have h2 : Real.log ((2 : ℝ) / 1) = Real.log 2 := by
    norm_num
  have hrad : (0.5 : ℝ) * Real.log ((1 : ℝ) / 1) ^ 2
      - (2 * Real.log 2 - 1) * Real.log ((2 : ℝ) / 1) ^ 2 < 0 := by
    rw [h1, h2]
    have hp : (0 : ℝ) < 2 * Real.log 2 - 1 := by linarith
    have hq : (0 : ℝ) < Real.log 2 ^ 2 := pow_pos hL 2
    nlinarith
  have heval : ∀ a : Bool, calculate_garman_klass_volatility [Bar.mk 1 1 1 2] a = none := by
    intro a
    simp only [calculate_garman_klass_volatility, List.map_cons, List.map_nil, meanOpt,
      List.isEmpty_cons, Bool.false_eq_true, if_false, List.length_cons, List.length_nil,
      Nat.cast_one, div_one]
    rw [if_pos]
    simpa using hrad
  exact ⟨hrad, heval true, heval false⟩

/-- C9 (counterexample): the core does not borrow the frame read-only; on
a concrete one-bar frame, calculate_returns returns a frame with a new
returns column and analyze_volatility_by_year returns a frame with a
new year column, so neither output equals the input frame. -/
theorem core_mutates_input :
    calculate_returns
        (DataFrame.mk [Date.mk 2020 1] [Bar.mk 100 110 90 105] none none)
      ≠ DataFrame.mk [Date.mk 2020 1] [Bar.mk 100 110 90 105] none none
    ∧ (analyze_volatility_by_year
        (DataFrame.mk [Date.mk 2020 1] [Bar.mk 100 110 90 105] none none)).1
      ≠ DataFrame.mk [Date.mk 2020 1] [Bar.mk 100 110 90 105] none none := by
  constructor
  · intro h
    have hc := congrArg DataFrame.returnsCol h
    simp [calculate_returns] at hc
  · intro h
    have hc := congrArg DataFrame.yearCol h
    simp [analyze_volatility_by_year] at hc

/-- C9 (amended): the core never changes the dates, the OHLC bars, or a
column it does not own: calculate_returns only writes the returns
column and analyze_volatility_by_year only writes the year column into
the caller's frame. -/
theorem core_preserves_data (df : DataFrame) :
    (calculate_returns df).dates = df.dates
    ∧ (calculate_returns df).bars = df.bars
    ∧ (calculate_returns df).yearCol = df.yearCol
    ∧ (calculate_returns df).returnsCol
        = some (returnsFromCloses (df.bars.map Bar.close))
    ∧ ((analyze_volatility_by_year df).1).dates = df.dates
    ∧ ((analyze_volatility_by_year df).1).bars = df.bars
    ∧ ((analyze_volatility_by_year df).1).returnsCol = df.returnsCol
    ∧ ((analyze_volatility_by_year df).1).yearCol
        = some (df.dates.map Date.year) :=
  ⟨rfl, rfl, rfl, rfl, rfl, rfl, rfl, rfl⟩

/-- C6 (evaluation at the failing input): on a ten-bar series whose dates
are strictly descending (not ascending), the pipeline raises nothing
and produces a normal summary for the year - no ordering validation
exists in the source. -/
theorem unsorted_input_computes :
    ¬ List.Sorted dateLt
        [Date.mk 2020 10, Date.mk 2020 9, Date.mk 2020 8, Date.mk 2020 7, Date.mk 2020 6,
          Date.mk 2020 5, Date.mk 2020 4, Date.mk 2020 3, Date.mk 2020 2, Date.mk 2020 1]
    ∧ ((analyze_volatility_by_year (calculate_returns (DataFrame.mk
          [Date.mk 2020 10, Date.mk 2020 9, Date.mk 2020 8, Date.mk 2020 7, Date.mk 2020 6,
            Date.mk 2020 5, Date.mk 2020 4, Date.mk 2020 3, Date.mk 2020 2, Date.mk 2020 1]
          (List.replicate 10 (Bar.mk 100 110 90 105)) none none))).2).map YearMetrics.year
      = [2020] := by
  constructor
  · intro h
    have h0 := (List.sorted_cons.mp h).1 (Date.mk 2020 9) (by simp)
    simp [dateLt] at h0
  · have e : (analyze_volatility_by_year (calculate_returns (DataFrame.mk
          [Date.mk 2020 10, Date.mk 2020 9, Date.mk 2020 8, Date.mk 2020 7, Date.mk 2020 6,
            Date.mk 2020 5, Date.mk 2020 4, Date.mk 2020 3, Date.mk 2020 2, Date.mk 2020 1]
          (List.replicate 10 (Bar.mk 100 110 90 105)) none none))).2
        = analyzeRows (rowsOf (calculate_returns (DataFrame.mk
          [Date.mk 2020 10, Date.mk 2020 9, Date.mk 2020 8, Date.mk 2020 7, Date.mk 2020 6,
            Date.mk 2020 5, Date.mk 2020 4, Date.mk 2020 3, Date.mk 2020 2, Date.mk 2020 1]
          (List.replicate 10 (Bar.mk 100 110 90 105)) none none))) := rfl
    rw [e, analyzeRows_single_year _ 2020 (by decide) (by decide)]
    rfl

theorem rowsAux_eq_zip (prev : Option ℝ) (l : List (Date × Bar)) :
    (l.zip (returnsAux prev (l.map fun s => s.2.close))).map
        (fun p => Row.mk p.1.1 p.1.2 p.2)
      = rowsAux prev l := by
  induction l generalizing prev with
  | nil => rfl
  | cons s rest ih => simp [returnsAux, rowsAux, ih]

theorem rowsFromSeries_eq (l : List (Date × Bar)) :
    rowsFromSeries l = rowsAux none l :=
  rowsAux_eq_zip none l

theorem rowsAux_append (prev : Option ℝ) (l1 l2 : List (Date × Bar)) :
    rowsAux prev (l1 ++ l2) = rowsAux prev l1 ++ rowsAux (carryBars prev l1) l2 := by
  induction l1 generalizing prev with
  | nil => simp [rowsAux, carryBars]
  | cons s rest ih =>
    simp [rowsAux, carryBars, List.foldl_cons] at ih ⊢
    exact ih (some s.2.close)

theorem carryBars_append_last (prev : Option ℝ) (l : List (Date × Bar)) (s : Date × Bar) :
    carryBars prev (l ++ [s]) = some s.2.close := by
  simp [carryBars, List.foldl_append]

theorem rowsAux_map_date (prev : Option ℝ) (l : List (Date × Bar)) :
    (rowsAux prev l).map Row.date = l.map Prod.fst := by
  induction l generalizing prev with
  | nil => rfl
  | cons s rest ih => simp [rowsAux, ih]

theorem rowsAux_filter_ne (prev : Option ℝ) (l : List (Date × Bar)) (y : Int)
    (h : ∀ s ∈ l, s.1.year ≠ y) :
    (rowsAux prev l).filter (fun r => r.date.year = y) = [] := by
  rw [List.filter_eq_nil_iff]
  intro x hx
  have hd : x.date ∈ l.map Prod.fst := by
    rw [← rowsAux_map_date prev l]
    exact List.mem_map_of_mem Row.date hx
  rw [List.mem_map] at hd
  obtain ⟨s, hs, hsd⟩ := hd
  have hne := h s hs
  rw [hsd] at hne
  simpa using hne

theorem rowsAux_filter_all (prev : Option ℝ) (l : List (Date × Bar)) (y : Int)
    (h : ∀ s ∈ l, s.1.year = y) :
    (rowsAux prev l).filter (fun r => r.date.year = y) = rowsAux prev l := by
  rw [List.filter_eq_self]
  intro x hx
  have hd : x.date ∈ l.map Prod.fst := by
    rw [← rowsAux_map_date prev l]
    exact List.mem_map_of_mem Row.date hx
  rw [List.mem_map] at hd
  obtain ⟨s, hs, hsd⟩ := hd
  have he := h s hs
  rw [hsd] at he
  simpa using he

/-- C10: because the log returns are derived over the whole series before
the per-year partition, the first return of any non-earliest year is the
cross-boundary value ln of (that year's first close over the previous
year's last close), and it is among the returns that feed the year's
realized volatility, max daily return and min daily return. -/
theorem cross_year_return (t1 : List (Date × Bar)) (p q : Date × Bar)
    (t2 t3 : List (Date × Bar)) (y : Int)
    (h1 : ∀ s ∈ t1 ++ [p], s.1.year < y)
    (h2 : ∀ s ∈ q :: t2, s.1.year = y)
    (h3 : ∀ s ∈ t3, y < s.1.year)
    (yd : List Row)
    (hyd : yd = (rowsFromSeries (((t1 ++ [p]) ++ (q :: t2)) ++ t3)).filter
        fun r => r.date.year = y) :
    yd.head? = some (Row.mk q.1 q.2 (some (Real.log (q.2.close / p.2.close))))
    ∧ some (Real.log (q.2.close / p.2.close)) ∈ yd.map Row.ret
    ∧ (metricsFor y yd).realizedVolPct
        = (calculate_realized_volatility (yd.map Row.ret) true).map (fun v => v * 100)
    ∧ (metricsFor y yd).maxDailyReturnPct
        = ((yd.map Row.ret).filterMap id).max?.map (fun v => v * 100)
    ∧ (metricsFor y yd).minDailyReturnPct
        = ((yd.map Row.ret).filterMap id).min?.map (fun v => v * 100) := by
  have hyd2 : yd
      = Row.mk q.1 q.2 (some (Real.log (q.2.close / p.2.close)))
          :: rowsAux (some q.2.close) t2 := by
    rw [hyd, rowsFromSeries_eq, rowsAux_append, rowsAux_append, carryBars_append_last,
      List.filter_append, List.filter_append,
      rowsAux_filter_ne none (t1 ++ [p]) y
        (by intro s hs; exact Int.ne_of_lt (h1 s hs)),
      rowsAux_filter_all (some p.2.close) (q :: t2) y h2,
      rowsAux_filter_ne _ t3 y
        (by intro s hs; exact (Int.ne_of_lt (h3 s hs)).symm)]
    simp [rowsAux]
  refine ⟨?_, ?_, rfl, rfl, rfl⟩
  · rw [hyd2]
    rfl
  · rw [hyd2]
    exact List.mem_map_of_mem Row.ret (List.mem_cons_self _ _)

theorem cross_year_return_example :
    ((rowsFromSeries ((([] ++ [(Date.mk 2020 1, Bar.mk 100 110 90 105)])
        ++ ((Date.mk 2021 1, Bar.mk 105 115 95 108) :: [])) ++ [])).filter
          fun r => r.date.year = 2021).head?
      = some (Row.mk (Date.mk 2021 1) (Bar.mk 105 115 95 108)
          (some (Real.log ((Bar.mk 105 115 95 108).close / (Bar.mk 100 110 90 105).close))))
    ∧ some (Real.log ((Bar.mk 105 115 95 108).close / (Bar.mk 100 110 90 105).close))
        ∈ ((rowsFromSeries ((([] ++ [(Date.mk 2020 1, Bar.mk 100 110 90 105)])
            ++ ((Date.mk 2021 1, Bar.mk 105 115 95 108) :: [])) ++ [])).filter
              fun r => r.date.year = 2021).map Row.ret := by
  have h := cross_year_return [] (Date.mk 2020 1, Bar.mk 100 110 90 105)
    (Date.mk 2021 1, Bar.mk 105 115 95 108) [] [] 2021
    (by intro s hs; simp at hs; rw [hs]; decide)
    (by intro s hs; simp at hs; rw [hs])
    (by intro s hs; simp at hs)
    (((rowsFromSeries ((([] ++ [(Date.mk 2020 1, Bar.mk 100 110 90 105)])
        ++ ((Date.mk 2021 1, Bar.mk 105 115 95 108) :: [])) ++ [])).filter
          fun r => r.date.year = 2021)) rfl
  exact ⟨h.1, h.2.1⟩

end SpyVol
